import Mathlib

/-!
Shallow embedding of `src/parser/function.rs` from the miniplc front end:
parameter-list parsing, function-declaration parsing, call-argument
resolution against a scope stack, and return-statement parsing.

The parser state is a token cursor (a zipper over the finite token stream;
advancing past the last token leaves the cursor on that token, the scanner
always terminating the stream with an end-of-input token) together with the
scope stack `context`.  Rust's `Vec` used as a stack is modelled by a Lean
`List` whose head is the top of the stack.  External collaborators of this
file (the token cursor, the type parser, the block parser, the expression
parser and the expected-token macros) are not part of the translated source;
each of their definitions is modelled from the spec, and is marked as such.
-/

namespace MiniPLC

/-- Token kinds, a closed enumeration (spec section 3). -/
inductive Kind where
  | Identifier
  | Colon
  | Comma
  | LeftParen
  | RightParen
  | Semicolon
  | Var
  | Function
  | Begin
  | End
  | Plus
  | Number
  | Eof
  deriving DecidableEq, Repr

/-- Modelled from the spec: the display name of a token kind, used when
formatting "Unexpected token" diagnostics. -/
def Kind.toName : Kind → String
  | .Identifier => "Identifier"
  | .Colon => "Colon"
  | .Comma => "Comma"
  | .LeftParen => "LeftParen"
  | .RightParen => "RightParen"
  | .Semicolon => "Semicolon"
  | .Var => "Var"
  | .Function => "Function"
  | .Begin => "Begin"
  | .End => "End"
  | .Plus => "Plus"
  | .Number => "Number"
  | .Eof => "Eof"

/-- A token: kind, source text and source position (spec section 3). -/
structure Token where
  kind : Kind
  lexeme : String
  position : Nat
  deriving DecidableEq, Repr

/-- The token yielded by a cursor that has no token at all under it. -/
def eofToken : Token := ⟨Kind.Eof, "", 0⟩

/-- Symbol kinds: value parameter, reference parameter, function. -/
inductive SymbolType where
  | Param
  | VarParam
  | Function
  deriving DecidableEq, Repr

/-- A declared name: its kind, resolved type and declaration position. -/
structure Symbol where
  name : String
  s_type : SymbolType
  r_type : String
  position : Nat
  deriving DecidableEq, Repr

/-- An insertion-ordered symbol table; `push` appends at the end. -/
abbrev SymbolTable := List Symbol

/-- Name lookup in a symbol table: the first symbol with the given name. -/
def SymbolTable.get (t : SymbolTable) (n : String) : Option Symbol :=
  t.find? (fun sym => sym.name == n)

/-- A syntax diagnostic: message and source position. -/
structure SyntaxError where
  message : String
  position : Nat
  deriving DecidableEq, Repr

/-- Parser state: the token cursor as a zipper (`consumed` holds the already
consumed tokens most recent first, so its head is the current token;
`rest` holds the tokens not yet consumed) and the scope stack `context`,
whose head is the active (top) scope. -/
structure PState where
  consumed : List Token
  rest : List Token
  context : List SymbolTable
  deriving DecidableEq, Repr

/-- Modelled from the spec: the cursor's current token. -/
def PState.current (s : PState) : Token := s.consumed.headD eofToken

/-- Modelled from the spec: advance the cursor one token; at the end of the
stream the cursor stays on the last token (the scanner's end-of-input token). -/
def PState.advance (s : PState) : PState :=
  match s.rest with
  | [] => s
  | t :: ts => { s with consumed := t :: s.consumed, rest := ts }

/-- Modelled from the spec: step the cursor back one token. -/
def PState.go_back (s : PState) : PState :=
  match s.consumed with
  | [] => s
  | t :: ts => { s with consumed := ts, rest := t :: s.rest }

/-- Modelled from the spec: does the current token have the given kind. -/
def PState.matchesKind (s : PState) (k : Kind) : Bool :=
  s.current.kind == k

/-- Modelled from the spec: a diagnostic at the current token's position. -/
def PState.error_at_current (s : PState) (msg : String) : SyntaxError :=
  ⟨msg, s.current.position⟩

/-- Modelled from the spec: the single-element "expected token kind" error
list produced when a grammar step meets the wrong token kind. -/
def PState.unexpected_token_err (s : PState) (expected found : Kind) : List SyntaxError :=
  [⟨"Unexpected token: expected " ++ expected.toName ++ ", found " ++ found.toName,
    s.current.position⟩]

/-- Result of running a parser method on a state.  `ok`/`err` mirror Rust's
`Result` together with the final mutated parser state; `panicked` is the
outcome of an `unwrap` on `None`; `fuelOut` is the artificial outcome of the
call-argument loop when its step budget is exhausted, carrying the
diagnostics and argument table accumulated so far. -/
inductive PRes (α : Type) where
  | ok : α → PState → PRes α
  | err : List SyntaxError → PState → PRes α
  | panicked : PRes α
  | fuelOut : List SyntaxError → SymbolTable → PState → PRes α
  deriving DecidableEq, Repr

/-- Rust's `?` operator on `Result` combined with state passing. -/
def PRes.andThen (r : PRes α) (f : α → PState → PRes β) : PRes β :=
  match r with
  | .ok a s => f a s
  | .err es s => .err es s
  | .panicked => .panicked
  | .fuelOut es t s => .fuelOut es t s

/-- Modelled from the spec: the `advance_with_expected!` helper macro —
advance the cursor, run the body if the new current token has the expected
kind, fail fast with an expected-token error otherwise. -/
def advance_with_expected (k : Kind) (s : PState) (body : PState → PRes α) : PRes α :=
  let s1 := s.advance
  if s1.current.kind == k then body s1
  else .err (s1.unexpected_token_err k s1.current.kind) s1

/-- Modelled from the spec: the `current_with_expected!` helper macro —
run the body if the current token has the expected kind, fail fast with an
expected-token error otherwise. -/
def current_with_expected (k : Kind) (s : PState) (body : PState → PRes α) : PRes α :=
  if s.current.kind == k then body s
  else .err (s.unexpected_token_err k s.current.kind) s

/-- Modelled from the spec: the type-specification collaborator — consumes
one token which must name a type and returns that type descriptor, the
cursor resting on the type's token. -/
def parse_type (s : PState) : PRes String :=
  let s1 := s.advance
  if s1.current.kind == Kind.Identifier then .ok s1.current.lexeme s1
  else .err (s1.unexpected_token_err Kind.Identifier s1.current.kind) s1

/-- AST nodes produced by this file (spec section 3); expression and block
nodes are owned by the external collaborators that build them. -/
inductive ASTNode where
  | FunctionDecl (name : String) (position : Nat) (args : SymbolTable)
      (block : ASTNode) (r_type : String)
  | FunctionCallStmt (position : Nat) (args : SymbolTable) (target : String)
  | ReturnStmt (token : Token) (value : Option ASTNode)
  | Block
  | Ident (token : Token)
  | Num (token : Token)
  | BinOp (op : Token) (lhs rhs : ASTNode)

/-- Translation of `Parser::parse_single_param` (function.rs lines 17-52):
an optional `var` reference marker, then identifier, colon, a type, and a
terminating comma or right parenthesis. -/
def parse_single_param (s : PState) : PRes Symbol :=
  let s1 := s.advance
  match s1.current.kind with
  | Kind.Var =>
    advance_with_expected Kind.Identifier s1 (fun s2 =>
      let id := s2.current
      advance_with_expected Kind.Colon s2 (fun s3 =>
        (parse_type s3).andThen (fun ttype s4 =>
          let s5 := s4.advance
          match s5.current.kind with
          | Kind.Comma | Kind.RightParen =>
            .ok ⟨id.lexeme, SymbolType.VarParam, ttype, id.position⟩ s5
          | other => .err (s5.unexpected_token_err Kind.RightParen other) s5)))
  | Kind.Identifier =>
    let id := s1.current
    advance_with_expected Kind.Colon s1 (fun s3 =>
      (parse_type s3).andThen (fun ttype s4 =>
        let s5 := s4.advance
        match s5.current.kind with
        | Kind.Comma | Kind.RightParen =>
          .ok ⟨id.lexeme, SymbolType.Param, ttype, id.position⟩ s5
        | other => .err (s5.unexpected_token_err Kind.RightParen other) s5))
  | other => .err (s1.unexpected_token_err Kind.Identifier other) s1

/-- The loop of `Parser::parse_parameters` (function.rs lines 58-64), with an
explicit step budget standing in for Rust's unbounded `loop`: parse one
parameter, push it, stop when the current token is the right parenthesis. -/
def parse_parameters_go (fuel : Nat) (params : SymbolTable) (s : PState) : PRes SymbolTable :=
  match fuel with
  | 0 => .fuelOut [] params s
  | fuel + 1 =>
    (parse_single_param s).andThen (fun param s1 =>
      let params1 := params ++ [param]
      if s1.matchesKind Kind.RightParen then .ok params1 s1
      else parse_parameters_go fuel params1 s1)

/-- Translation of `Parser::parse_parameters` (function.rs lines 55-66); the
loop budget `rest.length + 1` is enough for any run the Rust loop performs,
since every successfully parsed parameter consumes at least one token. -/
def parse_parameters (s : PState) : PRes SymbolTable :=
  parse_parameters_go (s.rest.length + 1) [] s

/-- Index of the first end-of-block token in a token list, if any. -/
def first_end_idx : List Token → Option Nat
  | [] => none
  | t :: ts =>
    if t.kind == Kind.End then some 0
    else (first_end_idx ts).map (· + 1)

/-- Modelled from the spec: the general statement/block parser collaborator —
consumes the function body up to the end-of-block token and returns the
body's AST, an error when the end of the block is missing; it leaves the
scope stack unchanged. -/
def parse_block (s : PState) : PRes ASTNode :=
  match first_end_idx s.rest with
  | some i =>
    .ok ASTNode.Block
      { s with
        consumed := (s.rest.take (i + 1)).reverse ++ s.consumed,
        rest := s.rest.drop (i + 1) }
  | none => .err [s.error_at_current "expected end of block"] s

/-- Translation of `Parser::parse_function` (function.rs lines 70-109):
identifier, left parenthesis, parameter list, right parenthesis, colon,
return type, semicolon, `begin`, then the body with the parameter table
pushed as the active scope; afterwards the popped scope is extended with the
function's own symbol and pushed back. -/
def parse_function (s : PState) : PRes ASTNode :=
  advance_with_expected Kind.Identifier s (fun s1 =>
    let id := s1.current
    advance_with_expected Kind.LeftParen s1 (fun s2 =>
      (parse_parameters s2).andThen (fun args s3 =>
        current_with_expected Kind.RightParen s3 (fun s3 =>
          advance_with_expected Kind.Colon s3 (fun s4 =>
            (parse_type s4).andThen (fun r_type s5 =>
              advance_with_expected Kind.Semicolon s5 (fun s6 =>
                advance_with_expected Kind.Begin s6 (fun s7 =>
                  let s8 := { s7 with context := args :: s7.context }
                  (parse_block s8).andThen (fun block s9 =>
                    match s9.context with
                    | [] => .panicked
                    | ctx :: ctxs =>
                      let ctx1 := ctx ++ [⟨id.lexeme, SymbolType.Function, r_type, id.position⟩]
                      let s10 := { s9 with context := ctx1 :: ctxs }
                      .ok (ASTNode.FunctionDecl id.lexeme s10.current.position args block r_type)
                        s10)))))))))

/-- The loop of `Parser::parse_call_parameters` (function.rs lines 116-158),
with an explicit step budget standing in for Rust's unbounded `loop` and the
parameter/diagnostic accumulators as arguments; `finishCall` below is the
check following the loop. -/
def finishCall (params : SymbolTable) (errors : List SyntaxError) (s : PState) :
    PRes SymbolTable :=
  if errors.isEmpty then .ok params s else .err errors s

/-- One budgeted run of the call-argument loop (function.rs lines 116-158).
On an identifier the top of the scope stack is unwrapped (a panic when the
stack is empty) and the name looked up; a resolved symbol is pushed and the
following token must be a comma, a right parenthesis (break) or end-of-input
(diagnostic, break); every other situation records a diagnostic and
continues the loop. -/
def call_params_go (fuel : Nat) (params : SymbolTable) (errors : List SyntaxError)
    (s : PState) : PRes SymbolTable :=
  match fuel with
  | 0 => .fuelOut errors params s
  | fuel + 1 =>
    let s1 := s.advance
    match s1.current.kind with
    | Kind.Identifier =>
      let param := s1.current
      match s1.context with
      | [] => .panicked
      | top :: _ =>
        match top.get param.lexeme with
        | some p =>
          let params1 := params ++ [p]
          let s2 := s1.advance
          match s2.current.kind with
          | Kind.Comma => call_params_go fuel params1 errors s2
          | Kind.RightParen => finishCall params1 errors s2
          | Kind.Eof =>
            finishCall params1
              (errors ++ [s2.error_at_current
                "Found EOF wile parsing call parameters, missing a )?"]) s2
          | other =>
            call_params_go fuel params1
              (errors ++ [s2.error_at_current ("Unexpected token: " ++ other.toName)]) s2
        | none =>
          call_params_go fuel params
            (errors ++ [s1.error_at_current
              ("use of undeclared variable: " ++ param.lexeme)]) s1
    | other =>
      call_params_go fuel params
        (errors ++ [s1.error_at_current ("Unexpected token: " ++ other.toName)]) s1

/-- Translation of `Parser::parse_call_parameters` (function.rs lines
111-164), parametrised by the loop's step budget. -/
def parse_call_parameters (fuel : Nat) (s : PState) : PRes SymbolTable :=
  call_params_go fuel [] [] s

/-- Translation of `Parser::parse_function_call` (function.rs lines 166-182):
the call target is the current token; expect a left parenthesis, parse the
arguments, expect the right parenthesis still under the cursor. -/
def parse_function_call (fuel : Nat) (s : PState) : PRes ASTNode :=
  let f_name := s.current
  advance_with_expected Kind.LeftParen s (fun s1 =>
    (parse_call_parameters fuel s1).andThen (fun params s2 =>
      current_with_expected Kind.RightParen s2 (fun s3 =>
        .ok (ASTNode.FunctionCallStmt f_name.position params f_name.lexeme) s3)))

/-- Modelled from the spec: a primary expression of the general expression
parser collaborator — one identifier or number token. -/
def parse_primary (s : PState) : PRes ASTNode :=
  let s1 := s.advance
  match s1.current.kind with
  | Kind.Identifier => .ok (ASTNode.Ident s1.current) s1
  | Kind.Number => .ok (ASTNode.Num s1.current) s1
  | other => .err (s1.unexpected_token_err Kind.Identifier other) s1

/-- Modelled from the spec: the operator chain of the expression parser —
while the token after the parsed prefix is a plus, consume it and a further
primary; the cursor ends on the first token past the expression. -/
def expr_go (fuel : Nat) (lhs : ASTNode) (s : PState) : PRes ASTNode :=
  match fuel with
  | 0 => .err [s.error_at_current "expression too long"] s
  | fuel + 1 =>
    let s1 := s.advance
    if s1.current.kind == Kind.Plus then
      (parse_primary s1).andThen (fun rhs s2 =>
        expr_go fuel (ASTNode.BinOp s1.current lhs rhs) s2)
    else .ok lhs s1

/-- Modelled from the spec: the general expression parser collaborator —
a primary followed by a plus chain, the cursor ending one past the
expression's last token. -/
def parse_expression (s : PState) : PRes ASTNode :=
  (parse_primary s).andThen (fun lhs s1 => expr_go (s1.rest.length + 1) lhs s1)

/-- Translation of `Parser::parse_return` (function.rs lines 184-205):
a semicolon right after `return` gives a valueless return; otherwise the
cursor steps back one token, the expression parser runs, and a semicolon
must follow the expression. -/
def parse_return (s : PState) : PRes ASTNode :=
  let id := s.current
  let s1 := s.advance
  match s1.current.kind with
  | Kind.Semicolon => .ok (ASTNode.ReturnStmt id none) s1
  | _ =>
    let s2 := s1.go_back
    (parse_expression s2).andThen (fun expr s3 =>
      current_with_expected Kind.Semicolon s3 (fun s4 =>
        .ok (ASTNode.ReturnStmt id (some expr)) s4))

/-! ### Specification-side description of syntactically valid parameter lists -/

/-- One parameter of a syntactically valid parameter list: its name, whether
the reference marker precedes it, its type name, and the source position of
its identifier token. -/
structure ParamSpec where
  pname : String
  isRef : Bool
  ptype : String
  ppos : Nat
  deriving DecidableEq, Repr

/-- The tokens of one parameter: an optional reference marker, the
identifier, a colon and the type name. -/
def tokensOfOne (p : ParamSpec) : List Token :=
  (if p.isRef then [⟨Kind.Var, "var", 0⟩] else []) ++
    [⟨Kind.Identifier, p.pname, p.ppos⟩, ⟨Kind.Colon, ":", 0⟩, ⟨Kind.Identifier, p.ptype, 0⟩]

/-- The token stream of a comma-separated parameter list, terminated by the
closing right parenthesis. -/
def tokensOfParams : List ParamSpec → List Token
  | [] => []
  | [p] => tokensOfOne p ++ [⟨Kind.RightParen, ")", 0⟩]
  | p :: ps => tokensOfOne p ++ ⟨Kind.Comma, ",", 0⟩ :: tokensOfParams ps

/-- The symbol a parameter declaration should produce: reference marker
present gives a reference parameter, absent a value parameter; the type is
the one the type parser produces and the position the identifier's. -/
def symOf (p : ParamSpec) : Symbol :=
  ⟨p.pname, if p.isRef then SymbolType.VarParam else SymbolType.Param, p.ptype, p.ppos⟩

/-! ### The final scope stack of a parser outcome -/

/-- The final state of a parser outcome has the given scope stack (vacuous
for a panic, which has no final state). -/
def PRes.ctxEq : PRes α → List SymbolTable → Prop
  | .ok _ s, c => s.context = c
  | .err _ s, c => s.context = c
  | .panicked, _ => True
  | .fuelOut _ _ s, c => s.context = c

/-! ### Concrete fixtures -/

/-- Shorthand for a token literal. -/
def tk (k : Kind) (lx : String) (p : Nat) : Token := ⟨k, lx, p⟩

/-- Token stream of `function f(): T; begin end`, the cursor on the keyword
that `parse_function` consumes first. -/
def c1_state : PState :=
  ⟨[tk .Function "function" 0],
   [tk .Identifier "f" 1, tk .LeftParen "(" 2, tk .RightParen ")" 3, tk .Colon ":" 4,
    tk .Identifier "T" 5, tk .Semicolon ";" 6, tk .Begin "begin" 7, tk .End "end" 8,
    tk .Eof "" 9], [[]]⟩

/-- State of the cursor after `parse_function` on `c1_state` stops on the
right parenthesis of the empty parameter list. -/
def c1_after : PState :=
  ⟨[tk .RightParen ")" 3, tk .LeftParen "(" 2, tk .Identifier "f" 1, tk .Function "function" 0],
   [tk .Colon ":" 4, tk .Identifier "T" 5, tk .Semicolon ";" 6, tk .Begin "begin" 7,
    tk .End "end" 8, tk .Eof "" 9], [[]]⟩

/-- Token stream of `function h(): U;`, a second empty-parameter-list
declaration. -/
def c1w_state : PState :=
  ⟨[tk .Function "function" 0],
   [tk .Identifier "h" 1, tk .LeftParen "(" 2, tk .RightParen ")" 3, tk .Colon ":" 4,
    tk .Identifier "U" 5, tk .Semicolon ";" 6, tk .Eof "" 7], [[]]⟩

/-- State of the cursor after the empty parameter list of `c1w_state` is
rejected. -/
def c1w_after : PState :=
  ⟨[tk .RightParen ")" 3, tk .LeftParen "(" 2, tk .Identifier "h" 1, tk .Function "function" 0],
   [tk .Colon ":" 4, tk .Identifier "U" 5, tk .Semicolon ";" 6, tk .Eof "" 7], [[]]⟩

/-- A symbol for a declared variable `x`, placed in the active scope. -/
def x_symbol : Symbol := ⟨"x", SymbolType.Param, "T", 0⟩

/-- Call arguments `x, y)` with only `x` declared, the cursor on the opening
parenthesis, as `parse_call_parameters` expects. -/
def c2_state : PState :=
  ⟨[tk .LeftParen "(" 0],
   [tk .Identifier "x" 1, tk .Comma "," 2, tk .Identifier "y" 3, tk .RightParen ")" 4,
    tk .Eof "" 5], [[x_symbol]]⟩

/-- The diagnostic recorded for the undeclared `y`. -/
def c2_err_y : SyntaxError := ⟨"use of undeclared variable: y", 3⟩

/-- The further diagnostic the loop records for the closing parenthesis that
follows the undeclared `y`. -/
def c2_err_rp : SyntaxError := ⟨"Unexpected token: RightParen", 4⟩

/-- The diagnostic the loop records when it then reaches end-of-input. -/
def c2_err_eof : SyntaxError := ⟨"Unexpected token: Eof", 5⟩

/-- Cursor state of the call-argument loop on `c2_state` after it has
consumed the closing parenthesis as an unexpected token. -/
def c2_state_rp : PState :=
  ⟨[tk .RightParen ")" 4, tk .Identifier "y" 3, tk .Comma "," 2, tk .Identifier "x" 1,
    tk .LeftParen "(" 0], [tk .Eof "" 5], [[x_symbol]]⟩

/-- Cursor state of the call-argument loop on `c2_state` once the whole
stream is consumed; the cursor stays here forever. -/
def c2_state_eof : PState :=
  ⟨[tk .Eof "" 5, tk .RightParen ")" 4, tk .Identifier "y" 3, tk .Comma "," 2,
    tk .Identifier "x" 1, tk .LeftParen "(" 0], [], [[x_symbol]]⟩

/-- A call `f(` cut off by end-of-input right after the opening parenthesis. -/
def c4_state : PState := ⟨[tk .LeftParen "(" 0], [tk .Eof "" 1], [[]]⟩

/-- `c4_state` once the end-of-input token is consumed; the cursor stays
here forever. -/
def c4_state_stuck : PState := ⟨[tk .Eof "" 1, tk .LeftParen "(" 0], [], [[]]⟩

/-- A call `f(x` cut off by end-of-input right after a resolvable argument. -/
def c4_resolved_state : PState :=
  ⟨[tk .LeftParen "(" 0], [tk .Identifier "x" 1, tk .Eof "" 2], [[x_symbol]]⟩

/-- `c4_resolved_state` after the loop consumed `x` and the end-of-input. -/
def c4_resolved_after : PState :=
  ⟨[tk .Eof "" 2, tk .Identifier "x" 1, tk .LeftParen "(" 0], [], [[x_symbol]]⟩

/-- Token stream of `function g(a: T): T; begin end`, a complete function
declaration with one parameter. -/
def c3_state : PState :=
  ⟨[tk .Function "function" 0],
   [tk .Identifier "g" 1, tk .LeftParen "(" 2, tk .Identifier "a" 3, tk .Colon ":" 4,
    tk .Identifier "T" 5, tk .RightParen ")" 6, tk .Colon ":" 7, tk .Identifier "T" 8,
    tk .Semicolon ";" 9, tk .Begin "begin" 10, tk .End "end" 11, tk .Eof "" 12], [[]]⟩

/-- The parameter symbol of `c3_state`'s declaration. -/
def a_symbol : Symbol := ⟨"a", SymbolType.Param, "T", 3⟩

/-- The AST node `parse_function` produces on `c3_state`. -/
def c3_ast : ASTNode :=
  ASTNode.FunctionDecl "g" 11 [a_symbol] ASTNode.Block "T"

/-- The parser state after `parse_function` succeeds on `c3_state`: body
consumed through `end`, the reinstalled top scope holding the parameter and
the function's own symbol. -/
def c3_after : PState :=
  ⟨[tk .End "end" 11, tk .Begin "begin" 10, tk .Semicolon ";" 9, tk .Identifier "T" 8,
    tk .Colon ":" 7, tk .RightParen ")" 6, tk .Identifier "T" 5, tk .Colon ":" 4,
    tk .Identifier "a" 3, tk .LeftParen "(" 2, tk .Identifier "g" 1, tk .Function "function" 0],
   [tk .Eof "" 12],
   [[a_symbol, ⟨"g", SymbolType.Function, "T", 1⟩], []]⟩

/-- Token stream of `function g(a: T): T; begin` with the end of the block
missing, so that body parsing fails. -/
def c5_state : PState :=
  ⟨[tk .Function "function" 0],
   [tk .Identifier "g" 1, tk .LeftParen "(" 2, tk .Identifier "a" 3, tk .Colon ":" 4,
    tk .Identifier "T" 5, tk .RightParen ")" 6, tk .Colon ":" 7, tk .Identifier "T" 8,
    tk .Semicolon ";" 9, tk .Begin "begin" 10, tk .Eof "" 11], [[]]⟩

/-- The state `parse_function` leaves behind when body parsing fails on
`c5_state`: the parameter scope pushed for the body is still on the stack. -/
def c5_after : PState :=
  ⟨[tk .Begin "begin" 10, tk .Semicolon ";" 9, tk .Identifier "T" 8, tk .Colon ":" 7,
    tk .RightParen ")" 6, tk .Identifier "T" 5, tk .Colon ":" 4, tk .Identifier "a" 3,
    tk .LeftParen "(" 2, tk .Identifier "g" 1, tk .Function "function" 0],
   [tk .Eof "" 11],
   [[a_symbol], []]⟩

/-- An input on which `parse_function` fails before any scope is pushed. -/
def c5w_state : PState :=
  ⟨[tk .Function "function" 0], [tk .Number "1" 1], [[]]⟩

/-- The state after that early failure. -/
def c5w_after : PState :=
  ⟨[tk .Number "1" 1, tk .Function "function" 0], [], [[]]⟩

/-- Token stream of `function f(,` whose first parameter is malformed. -/
def c6w_state : PState :=
  ⟨[tk .Function "function" 0],
   [tk .Identifier "f" 1, tk .LeftParen "(" 2, tk .Comma "," 3, tk .Eof "" 4], [[]]⟩

/-- The state after `parse_function` aborts on `c6w_state`'s bad parameter. -/
def c6w_after : PState :=
  ⟨[tk .Comma "," 3, tk .LeftParen "(" 2, tk .Identifier "f" 1, tk .Function "function" 0],
   [tk .Eof "" 4], [[]]⟩

/-- First parameter of the C7 witness list: `a: T`. -/
def c7pa : ParamSpec := ⟨"a", false, "T", 3⟩

/-- Second parameter of the C7 witness list: `var b: U`. -/
def c7pb : ParamSpec := ⟨"b", true, "U", 6⟩

/-- Token stream of `return x ;`, the cursor on the `return` token. -/
def c8w_state : PState :=
  ⟨[tk .Identifier "return" 0],
   [tk .Identifier "x" 1, tk .Semicolon ";" 2, tk .Eof "" 3], [[]]⟩

/-- The state after `parse_return` consumes `x ;` of `c8w_state`. -/
def c8w_mid : PState :=
  ⟨[tk .Semicolon ";" 2, tk .Identifier "x" 1, tk .Identifier "return" 0],
   [tk .Eof "" 3], [[]]⟩

/-- A call `f(x)` with `x` declared, the cursor on the call target. -/
def c9w_state : PState :=
  ⟨[tk .Identifier "f" 0],
   [tk .LeftParen "(" 1, tk .Identifier "x" 2, tk .RightParen ")" 3, tk .Eof "" 4],
   [[x_symbol]]⟩

/-- A call-argument list starting with an identifier while the scope stack
is empty: the lookup's unwrap panics. -/
def c10w_state : PState :=
  ⟨[tk .LeftParen "(" 0], [tk .Identifier "x" 1, tk .RightParen ")" 2], []⟩

/-! ### Helper lemmas: the scope stack is only touched where the source touches it -/

theorem advance_context (s : PState) : (s.advance).context = s.context := by
  cases h : s.rest <;> simp [PState.advance, h]

theorem advance_of_rest_nil (s : PState) (h : s.rest = []) : s.advance = s := by
  simp [PState.advance, h]

theorem andThen_ctx {α β : Type} {r : PRes α} {f : α → PState → PRes β} {c : List SymbolTable}
    (hr : r.ctxEq c) (hf : ∀ a s, s.context = c → (f a s).ctxEq c) :
    (r.andThen f).ctxEq c := by
  cases r <;> simp_all [PRes.andThen, PRes.ctxEq]

theorem awe_ctx {α : Type} {k : Kind} {s : PState} {body : PState → PRes α} {c : List SymbolTable}
    (hs : s.context = c) (hb : ∀ s1, s1.context = c → (body s1).ctxEq c) :
    (advance_with_expected k s body).ctxEq c := by
  unfold advance_with_expected
  have ha : (s.advance).context = c := by rw [advance_context, hs]
  dsimp only
  split
  · exact hb _ ha
  · simpa [PRes.ctxEq] using ha

theorem cwe_ctx {α : Type} {k : Kind} {s : PState} {body : PState → PRes α} {c : List SymbolTable}
    (hs : s.context = c) (hb : ∀ s1, s1.context = c → (body s1).ctxEq c) :
    (current_with_expected k s body).ctxEq c := by
  unfold current_with_expected
  split
  · exact hb _ hs
  · simpa [PRes.ctxEq] using hs

theorem parse_type_ctx (s : PState) : (parse_type s).ctxEq s.context := by
  unfold parse_type
  dsimp only
  split <;> simp [PRes.ctxEq, advance_context]

theorem parse_single_param_ctx (s : PState) : (parse_single_param s).ctxEq s.context := by
  unfold parse_single_param
  have ha : (s.advance).context = s.context := advance_context s
  dsimp only
  split
  · apply awe_ctx ha
    intro s2 h2
    apply awe_ctx h2
    intro s3 h3
    apply andThen_ctx
    · have := parse_type_ctx s3; rwa [h3] at this
    · intro t s4 h4
      split <;> simp [PRes.ctxEq, advance_context, h4]
  · apply awe_ctx ha
    intro s3 h3
    apply andThen_ctx
    · have := parse_type_ctx s3; rwa [h3] at this
    · intro t s4 h4
      split <;> simp [PRes.ctxEq, advance_context, h4]
  · simpa [PRes.ctxEq] using ha

theorem parse_parameters_go_ctx (fuel : Nat) (params : SymbolTable) (s : PState) :
    (parse_parameters_go fuel params s).ctxEq s.context := by
  induction fuel generalizing params s with
  | zero => simp [parse_parameters_go, PRes.ctxEq]
  | succ fuel ih =>
    unfold parse_parameters_go
    apply andThen_ctx (parse_single_param_ctx s)
    intro p s1 h1
    dsimp only
    split
    · simpa [PRes.ctxEq] using h1
    · have := ih (params ++ [p]) s1; rwa [h1] at this

theorem parse_parameters_ctx (s : PState) : (parse_parameters s).ctxEq s.context :=
  parse_parameters_go_ctx _ [] s

theorem parse_block_ctx (s : PState) : (parse_block s).ctxEq s.context := by
  unfold parse_block
  split <;> simp [PRes.ctxEq]

/-! ### Helper lemmas: fail-fast errors are single diagnostics -/

theorem parse_type_err_len {s : PState} {es : List SyntaxError} {s1 : PState}
    (h : parse_type s = .err es s1) : es.length = 1 := by
  unfold parse_type at h
  dsimp only at h
  split at h
  · exact absurd h (by simp)
  · cases h; rfl

theorem parse_single_param_err {s : PState} {es : List SyntaxError} {s1 : PState}
    (h : parse_single_param s = .err es s1) : es.length = 1 := by
  unfold parse_single_param at h
  dsimp only at h
  split at h
  · unfold advance_with_expected at h; dsimp only at h
    split at h
    · split at h
      · unfold PRes.andThen at h
        split at h
        · dsimp only at h
          split at h
          · cases h
          · cases h
          · cases h; rfl
        · rename_i heq; cases h; exact parse_type_err_len heq
        · cases h
        · cases h
      · cases h; rfl
    · cases h; rfl
  · unfold advance_with_expected at h; dsimp only at h
    split at h
    · unfold PRes.andThen at h
      split at h
      · dsimp only at h
        split at h
        · cases h
        · cases h
        · cases h; rfl
      · rename_i heq; cases h; exact parse_type_err_len heq
      · cases h
      · cases h
    · cases h; rfl
  · cases h; rfl

theorem parse_parameters_go_err {fuel : Nat} {params : SymbolTable} {s : PState}
    {es : List SyntaxError} {s1 : PState}
    (h : parse_parameters_go fuel params s = .err es s1) :
    ∃ s0, parse_single_param s0 = .err es s1 := by
  induction fuel generalizing params s with
  | zero => cases h
  | succ fuel ih =>
    unfold parse_parameters_go at h
    unfold PRes.andThen at h
    split at h
    · dsimp only at h
      split at h
      · cases h
      · exact ih h
    · rename_i heq; cases h; exact ⟨s, heq⟩
    · cases h
    · cases h

theorem parse_parameters_err {s : PState} {es : List SyntaxError} {s1 : PState}
    (h : parse_parameters s = .err es s1) :
    es.length = 1 ∧ ∃ s0, parse_single_param s0 = .err es s1 := by
  obtain ⟨s0, h0⟩ := parse_parameters_go_err h
  exact ⟨parse_single_param_err h0, s0, h0⟩

/-! ### Helper lemmas about the call-argument loop -/

theorem call_params_go_stuck (s : PState) (h1 : s.rest = []) (h2 : s.current.kind = Kind.Eof) :
    ∀ fuel params errors, ∃ es, call_params_go fuel params errors s = .fuelOut es params s := by
  intro fuel
  induction fuel with
  | zero => intro p e; exact ⟨e, rfl⟩
  | succ n ih =>
    intro p e
    have ha : s.advance = s := advance_of_rest_nil s h1
    unfold call_params_go
    dsimp only
    rw [ha, h2]
    exact ih p (e ++ [s.error_at_current ("Unexpected token: " ++ Kind.Eof.toName)])

theorem call_params_go_no_panic :
    ∀ (fuel : Nat) (params : SymbolTable) (errors : List SyntaxError) (s : PState),
      s.context ≠ [] → call_params_go fuel params errors s ≠ .panicked := by
  intro fuel
  induction fuel with
  | zero => intro p e s _; simp [call_params_go]
  | succ n ih =>
    intro p e s hctx
    have hctx1 : (s.advance).context ≠ [] := by rw [advance_context]; exact hctx
    unfold call_params_go
    dsimp only
    split
    · split
      · rename_i hnil; exact absurd hnil hctx1
      · split
        · split
          · exact ih _ _ _ (by rw [advance_context]; exact hctx1)
          · unfold finishCall; split <;> simp
          · unfold finishCall; split <;> simp
          · exact ih _ _ _ (by rw [advance_context]; exact hctx1)
        · exact ih _ _ _ hctx1
    · exact ih _ _ _ hctx1

/-! ### Claim theorems -/

/-- C1, counterexample: on `function f(): T; begin end` the parse does not
succeed — `parse_function` returns the single error "expected Identifier,
found RightParen" raised for the empty parameter list. -/
theorem empty_param_list_rejected :
    parse_function c1_state =
      .err [⟨"Unexpected token: expected Identifier, found RightParen", 3⟩] c1_after := rfl

/-- C1, amended: a parameter list whose first token after the opening
parenthesis is already the right parenthesis makes `parse_parameters` fail
with that single expected-identifier error — `parse_single_param` runs
before any right-parenthesis check — and `parse_function` propagates it, so
`function f(): T; begin ... end` is a syntax error, not a zero-parameter
declaration. -/
theorem parse_function_rejects_empty_params (s : PState)
    (h1 : (s.advance).current.kind = Kind.Identifier)
    (h2 : ((s.advance).advance).current.kind = Kind.LeftParen)
    (h3 : (((s.advance).advance).advance).current.kind = Kind.RightParen) :
    parse_parameters ((s.advance).advance) =
      .err ((((s.advance).advance).advance).unexpected_token_err Kind.Identifier Kind.RightParen)
        (((s.advance).advance).advance) ∧
    parse_function s =
      .err ((((s.advance).advance).advance).unexpected_token_err Kind.Identifier Kind.RightParen)
        (((s.advance).advance).advance) := by
  have hsp : parse_single_param ((s.advance).advance) =
      .err ((((s.advance).advance).advance).unexpected_token_err Kind.Identifier Kind.RightParen)
        (((s.advance).advance).advance) := by
    unfold parse_single_param
    dsimp only
    rw [h3]
  have hpp : parse_parameters ((s.advance).advance) =
      .err ((((s.advance).advance).advance).unexpected_token_err Kind.Identifier Kind.RightParen)
        (((s.advance).advance).advance) := by
    unfold parse_parameters parse_parameters_go
    rw [hsp]
    rfl
  refine ⟨hpp, ?_⟩
  unfold parse_function advance_with_expected
  dsimp only
  rw [h1]
  simp only [beq_self_eq_true, if_true]
  rw [h2]
  simp only [beq_self_eq_true, if_true]
  rw [hpp]
  rfl

/-- C1, amended claim witness: the amended behaviour at the concrete input
`function h(): U;`. -/
theorem parse_function_rejects_empty_params_witness :
    parse_function c1w_state =
      .err [⟨"Unexpected token: expected Identifier, found RightParen", 3⟩] c1w_after ∧
    parse_parameters ((c1w_state.advance).advance) =
      .err [⟨"Unexpected token: expected Identifier, found RightParen", 3⟩] c1w_after :=
  ⟨(parse_function_rejects_empty_params c1w_state rfl rfl rfl).2,
   (parse_function_rejects_empty_params c1w_state rfl rfl rfl).1⟩

/-- C2: on call arguments `x, y)` with `x` declared and `y` not, the loop
does collect the single "use of undeclared variable: y" diagnostic (the
successful resolution of `x` does not short-circuit it), but it does not
stop there: the closing parenthesis after `y` is consumed as a further
"Unexpected token" diagnostic, and the loop never returns at all — for
every step budget it is still running. -/
theorem call_params_undeclared_not_single_diag :
    parse_call_parameters 3 c2_state = .fuelOut [c2_err_y, c2_err_rp] [x_symbol] c2_state_rp ∧
    ∀ n, ∃ es p s1, parse_call_parameters n c2_state = .fuelOut es p s1 := by
  refine ⟨rfl, ?_⟩
  intro n
  match n with
  | 0 => exact ⟨_, _, _, rfl⟩
  | 1 => exact ⟨_, _, _, rfl⟩
  | 2 => exact ⟨_, _, _, rfl⟩
  | 3 => exact ⟨_, _, _, rfl⟩
  | (m+4) =>
    have hstep : parse_call_parameters (m+4) c2_state =
        call_params_go m [x_symbol] [c2_err_y, c2_err_rp, c2_err_eof] c2_state_eof := rfl
    obtain ⟨es, hs⟩ :=
      call_params_go_stuck c2_state_eof rfl rfl m [x_symbol] [c2_err_y, c2_err_rp, c2_err_eof]
    exact ⟨es, [x_symbol], c2_state_eof, hstep.trans hs⟩

/-- C4: the call-argument loop does not terminate on every finite token
sequence: on `f(` followed by end-of-input it runs forever (for every step
budget it is still running), because end-of-input reached while expecting an
argument falls into the unexpected-token arm, which never breaks.  The
positive half of the claim does hold: end-of-input reached right after a
resolved argument breaks the loop with the fatal missing-parenthesis
diagnostic. -/
theorem call_params_eof_no_termination :
    (∀ n, ∃ es s1, parse_call_parameters n c4_state = .fuelOut es [] s1) ∧
    parse_call_parameters 1 c4_resolved_state =
      .err [⟨"Found EOF wile parsing call parameters, missing a )?", 2⟩] c4_resolved_after := by
  refine ⟨?_, rfl⟩
  intro n
  match n with
  | 0 => exact ⟨_, _, rfl⟩
  | (m+1) =>
    have hstep : parse_call_parameters (m+1) c4_state =
        call_params_go m [] [⟨"Unexpected token: Eof", 1⟩] c4_state_stuck := rfl
    obtain ⟨es, hs⟩ :=
      call_params_go_stuck c4_state_stuck rfl rfl m [] [⟨"Unexpected token: Eof", 1⟩]
    exact ⟨es, c4_state_stuck, hstep.trans hs⟩

/-- C3: when `parse_function` succeeds, the body was parsed with the
parameter table as the active scope (so a lookup of the function's own name
during the body resolves only if a parameter shadows it — with no such
parameter it fails), and afterwards that scope was popped, extended with the
function's own symbol (kind function, the declared return type, the
function's name-token lexeme and position) and pushed back: the final top
scope is the parameter table plus the function's own symbol. -/
theorem parse_function_scope (s : PState) (ast : ASTNode) (s1 : PState)
    (h : parse_function s = .ok ast s1) :
    ∃ args block r_type sB sB',
      ast = ASTNode.FunctionDecl ((s.advance).current.lexeme) (sB'.current.position)
        args block r_type ∧
      sB.context = args :: s.context ∧
      parse_block sB = .ok block sB' ∧
      sB'.context = args :: s.context ∧
      s1.context =
        (args ++ [⟨(s.advance).current.lexeme, SymbolType.Function, r_type,
          (s.advance).current.position⟩]) :: s.context ∧
      (SymbolTable.get args ((s.advance).current.lexeme) = none →
        SymbolTable.get (sB.context.headD []) ((s.advance).current.lexeme) = none) := by
  unfold parse_function advance_with_expected current_with_expected at h
  dsimp only at h
  split at h
  case isFalse => cases h
  case isTrue =>
    split at h
    case isFalse => cases h
    case isTrue =>
      unfold PRes.andThen at h
      split at h
      case h_2 => cases h
      case h_3 => cases h
      case h_4 => cases h
      case h_1 args s3 heqP =>
        dsimp only at h
        split at h
        case isFalse => cases h
        case isTrue =>
          split at h
          case isFalse => cases h
          case isTrue =>
            split at h
            case h_2 => cases h
            case h_3 => cases h
            case h_4 => cases h
            case h_1 r_type s5 heqT =>
              try dsimp only at h
              split at h
              case isFalse => cases h
              case isTrue =>
                split at h
                case isFalse => cases h
                case isTrue =>
                  split at h
                  case h_2 => cases h
                  case h_3 => cases h
                  case h_4 => cases h
                  case h_1 block s9 heqB =>
                    try dsimp only at h
                    split at h
                    case h_1 => cases h
                    case h_2 ctx ctxs hctx9 =>
                      cases h
                      -- context bookkeeping
                      have h3 : s3.context = s.context := by
                        have := parse_parameters_ctx ((s.advance).advance)
                        rw [heqP] at this
                        rw [this, advance_context, advance_context]
                      have h5 : s5.context = s.context := by
                        have := parse_type_ctx (s3.advance)
                        rw [heqT] at this
                        rw [this, advance_context, h3]
                      have h7 : ((s5.advance).advance).context = s.context := by
                        rw [advance_context, advance_context, h5]
                      have h9 : s9.context = args :: s.context := by
                        have := parse_block_ctx
                          { (s5.advance).advance with
                            context := args :: ((s5.advance).advance).context }
                        rw [heqB] at this
                        rw [this]
                        dsimp only
                        rw [h7]
                      rw [h9] at hctx9
                      cases hctx9
                      refine ⟨args, block, r_type,
                        { (s5.advance).advance with
                          context := args :: ((s5.advance).advance).context }, s9,
                        rfl, by dsimp only; rw [h7], heqB, h9, by dsimp only, ?_⟩
                      intro hnone
                      dsimp only
                      rw [h7]
                      simpa using hnone

/-- C3, witness: the scope discipline at the concrete declaration
`function g(a: T): T; begin end`. -/
theorem parse_function_scope_witness :
    ∃ args block r_type sB sB',
      c3_ast = ASTNode.FunctionDecl ((c3_state.advance).current.lexeme) (sB'.current.position)
        args block r_type ∧
      sB.context = args :: c3_state.context ∧
      parse_block sB = .ok block sB' ∧
      sB'.context = args :: c3_state.context ∧
      c3_after.context =
        (args ++ [⟨(c3_state.advance).current.lexeme, SymbolType.Function, r_type,
          (c3_state.advance).current.position⟩]) :: c3_state.context ∧
      (SymbolTable.get args ((c3_state.advance).current.lexeme) = none →
        SymbolTable.get (sB.context.headD []) ((c3_state.advance).current.lexeme) = none) :=
  parse_function_scope c3_state c3_ast c3_after rfl

/-- C5, counterexample: on `function g(a: T): T; begin` the body parse
fails, and the erroring `parse_function` does not leave the scope stack at
its pre-call depth — the parameter scope pushed for the body is still there:
depth 2 where the call started at depth 1. -/
theorem scope_not_popped_on_body_error :
    parse_function c5_state = .err [⟨"expected end of block", 10⟩] c5_after ∧
    c5_after.context = [[a_symbol], []] ∧
    c5_state.context = [[]] := ⟨rfl, rfl, rfl⟩

/-- C5, amended: an erroring `parse_function` leaves the scope stack either
unchanged (error before the body scope is pushed) or exactly one scope
deeper (body parse error: the pushed parameter table is never popped on the
error path, so it leaks). -/
theorem parse_function_err_context (s : PState) (es : List SyntaxError) (s1 : PState)
    (h : parse_function s = .err es s1) :
    s1.context = s.context ∨ ∃ args, s1.context = args :: s.context := by
  unfold parse_function advance_with_expected current_with_expected at h
  dsimp only at h
  split at h
  case isFalse =>
    cases h
    exact Or.inl (advance_context s)
  case isTrue =>
    split at h
    case isFalse =>
      cases h
      left
      rw [advance_context, advance_context]
    case isTrue =>
      unfold PRes.andThen at h
      split at h
      case h_3 => cases h
      case h_4 => cases h
      case h_2 es3 s3 heqP =>
        cases h
        left
        have := parse_parameters_ctx ((s.advance).advance)
        rw [heqP] at this
        rw [this, advance_context, advance_context]
      case h_1 args s3 heqP =>
        have h3 : s3.context = s.context := by
          have := parse_parameters_ctx ((s.advance).advance)
          rw [heqP] at this
          rw [this, advance_context, advance_context]
        dsimp only at h
        split at h
        case isFalse =>
          cases h
          exact Or.inl h3
        case isTrue =>
          split at h
          case isFalse =>
            cases h
            left
            rw [advance_context, h3]
          case isTrue =>
            split at h
            case h_3 => cases h
            case h_4 => cases h
            case h_2 es5 s5 heqT =>
              cases h
              left
              have := parse_type_ctx (s3.advance)
              rw [heqT] at this
              rw [this, advance_context, h3]
            case h_1 r_type s5 heqT =>
              have h5 : s5.context = s.context := by
                have := parse_type_ctx (s3.advance)
                rw [heqT] at this
                rw [this, advance_context, h3]
              try dsimp only at h
              split at h
              case isFalse =>
                cases h
                left
                rw [advance_context, h5]
              case isTrue =>
                split at h
                case isFalse =>
                  cases h
                  left
                  rw [advance_context, advance_context, h5]
                case isTrue =>
                  split at h
                  case h_3 => cases h
                  case h_4 => cases h
                  case h_1 block s9 heqB =>
                    try dsimp only at h
                    split at h
                    case h_1 => cases h
                    case h_2 => cases h
                  case h_2 es9 s9 heqB =>
                    cases h
                    right
                    refine ⟨args, ?_⟩
                    have := parse_block_ctx
                      { (s5.advance).advance with
                        context := args :: ((s5.advance).advance).context }
                    rw [heqB] at this
                    rw [this]
                    dsimp only
                    rw [advance_context, advance_context, h5]

/-- C5, amended claim witness: a `parse_function` failure (here: before any
scope was pushed) ends in one of the two allowed scope-stack shapes. -/
theorem parse_function_err_context_witness :
    c5w_after.context = c5w_state.context ∨
      ∃ args, c5w_after.context = args :: c5w_state.context :=
  parse_function_err_context c5w_state
    [⟨"Unexpected token: expected Identifier, found Number", 1⟩] c5w_after rfl

/-- C6: parameter-list parsing is fail-fast: whenever `parse_parameters`
returns an error list, it is the single-element error of the first failing
`parse_single_param`, with no multi-error recovery; and `parse_function`
propagates a failing parameter list's error list unchanged. -/
theorem parameters_fail_fast :
    (∀ (s : PState) (es : List SyntaxError) (s1 : PState),
        parse_parameters s = .err es s1 →
        es.length = 1 ∧ ∃ s0, parse_single_param s0 = .err es s1) ∧
    (∀ (s : PState) (es : List SyntaxError) (s1 : PState),
        (s.advance).current.kind = Kind.Identifier →
        ((s.advance).advance).current.kind = Kind.LeftParen →
        parse_parameters ((s.advance).advance) = .err es s1 →
        parse_function s = .err es s1) := by
  refine ⟨fun s es s1 h => parse_parameters_err h, ?_⟩
  intro s es s1 h1 h2 h3
  unfold parse_function advance_with_expected
  dsimp only
  rw [h1]
  simp only [beq_self_eq_true, if_true]
  rw [h2]
  simp only [beq_self_eq_true, if_true]
  rw [h3]
  rfl

/-- C6, witness: on `function f(,` the malformed first parameter aborts
`parse_function` with exactly that one diagnostic. -/
theorem parameters_fail_fast_witness :
    parse_function c6w_state =
      .err [⟨"Unexpected token: expected Identifier, found Comma", 3⟩] c6w_after ∧
    ([(⟨"Unexpected token: expected Identifier, found Comma", 3⟩ : SyntaxError)]).length = 1 :=
  ⟨parameters_fail_fast.2 c6w_state _ _ rfl rfl rfl,
   (parameters_fail_fast.1 ((c6w_state.advance).advance) _ _ rfl).1⟩

theorem tokensOfParams_len : ∀ ps : List ParamSpec, ps.length ≤ (tokensOfParams ps).length := by
  intro ps
  induction ps with
  | nil => simp [tokensOfParams]
  | cons p ps ih =>
    cases ps with
    | nil => cases hr : p.isRef <;> simp [tokensOfParams, tokensOfOne, hr]
    | cons q qs =>
      cases hr : p.isRef <;>
        (simp only [tokensOfParams, tokensOfOne, hr, List.length_append, List.length_cons,
          List.length_nil, if_true, if_false, Bool.false_eq_true] at ih ⊢; omega)

theorem parse_parameters_go_valid :
    ∀ (ps : List ParamSpec), ps ≠ [] →
      ∀ (fuel : Nat), ps.length ≤ fuel →
      ∀ (acc : SymbolTable) (c r : List Token) (ctx : List SymbolTable),
        parse_parameters_go fuel acc ⟨c, tokensOfParams ps ++ r, ctx⟩ =
          .ok (acc ++ ps.map symOf) ⟨(tokensOfParams ps).reverse ++ c, r, ctx⟩ := by
  intro ps
  induction ps with
  | nil => intro h; exact absurd rfl h
  | cons p ps ih =>
    intro _ fuel hf acc c r ctx
    cases fuel with
    | zero => exact absurd hf (by simp)
    | succ fuel =>
      cases ps with
      | nil =>
        cases hr : p.isRef <;>
          simp [tokensOfParams, tokensOfOne, hr, parse_parameters_go, parse_single_param,
            advance_with_expected, parse_type, PRes.andThen, PState.advance, PState.current,
            PState.matchesKind, symOf, finishCall]
      | cons q qs =>
        have hne : q :: qs ≠ [] := by simp
        have hlen : (q :: qs).length ≤ fuel := by
          simp only [List.length_cons] at hf ⊢
          omega
        have hstep : parse_parameters_go (fuel+1) acc ⟨c, tokensOfParams (p::q::qs) ++ r, ctx⟩ =
            parse_parameters_go fuel (acc ++ [symOf p])
              ⟨⟨Kind.Comma, ",", 0⟩ :: ((tokensOfOne p).reverse ++ c),
               tokensOfParams (q::qs) ++ r, ctx⟩ := by
          cases hr : p.isRef <;>
            simp [tokensOfParams, tokensOfOne, hr, parse_parameters_go, parse_single_param,
              advance_with_expected, parse_type, PRes.andThen, PState.advance, PState.current,
              PState.matchesKind, symOf]
        rw [hstep, ih hne fuel hlen (acc ++ [symOf p]) _ r ctx]
        simp [tokensOfParams, tokensOfOne]

/-- C7: for every syntactically valid non-empty parameter list,
`parse_parameters` returns a symbol table with exactly one symbol per
parameter, in declaration order, a reference-marked parameter becoming a
reference parameter and an unmarked one a value parameter, each carrying the
type the type parser produced and its identifier's position. -/
theorem parse_parameters_valid (ps : List ParamSpec) (hne : ps ≠ [])
    (c r : List Token) (ctx : List SymbolTable) :
    parse_parameters ⟨c, tokensOfParams ps ++ r, ctx⟩ =
      .ok (ps.map symOf) ⟨(tokensOfParams ps).reverse ++ c, r, ctx⟩ := by
  unfold parse_parameters
  have h1 : ps.length ≤ (PState.mk c (tokensOfParams ps ++ r) ctx).rest.length + 1 := by
    have h2 := tokensOfParams_len ps
    simp only [List.length_append]
    omega
  simpa using parse_parameters_go_valid ps hne _ h1 [] c r ctx

/-- C7, witness: the parameter list `(a: T, var b: U)` yields exactly the
two symbols, in order, with the right kinds, types and positions. -/
theorem parse_parameters_valid_witness :
    parse_parameters ⟨[tk .LeftParen "(" 0], tokensOfParams [c7pa, c7pb] ++ [tk .Eof "" 10], [[]]⟩ =
      .ok [⟨"a", SymbolType.Param, "T", 3⟩, ⟨"b", SymbolType.VarParam, "U", 6⟩]
        ⟨(tokensOfParams [c7pa, c7pb]).reverse ++ [tk .LeftParen "(" 0], [tk .Eof "" 10], [[]]⟩ :=
  parse_parameters_valid [c7pa, c7pb] (by simp) [tk .LeftParen "(" 0] [tk .Eof "" 10] [[]]

/-! ### Helper lemmas for the return-statement parser -/

theorem parse_return_semi {s : PState} (h : (s.advance).current.kind = Kind.Semicolon) :
    parse_return s = .ok (ASTNode.ReturnStmt s.current none) s.advance := by
  unfold parse_return
  dsimp only
  rw [h]

theorem parse_return_not_semi {s : PState} (h : (s.advance).current.kind ≠ Kind.Semicolon) :
    parse_return s =
      (parse_expression ((s.advance).go_back)).andThen (fun expr s3 =>
        current_with_expected Kind.Semicolon s3 (fun s4 =>
          .ok (ASTNode.ReturnStmt s.current (some expr)) s4)) := by
  unfold parse_return
  dsimp only
  cases hk : (s.advance).current.kind
  all_goals first
    | exact absurd hk h
    | rfl

theorem parse_return_expr_ok {s : PState} (h : (s.advance).current.kind ≠ Kind.Semicolon)
    {expr : ASTNode} {s3 : PState}
    (he : parse_expression ((s.advance).go_back) = .ok expr s3) :
    (s3.current.kind = Kind.Semicolon →
       parse_return s = .ok (ASTNode.ReturnStmt s.current (some expr)) s3) ∧
    (s3.current.kind ≠ Kind.Semicolon →
       parse_return s = .err (s3.unexpected_token_err Kind.Semicolon s3.current.kind) s3) := by
  rw [parse_return_not_semi h, he]
  constructor
  · intro h3
    simp [PRes.andThen, current_with_expected, h3]
  · intro h3
    simp only [PRes.andThen, current_with_expected]
    rw [if_neg (by simpa using h3)]

theorem parse_return_expr_err {s : PState} (h : (s.advance).current.kind ≠ Kind.Semicolon)
    {es : List SyntaxError} {s3 : PState}
    (he : parse_expression ((s.advance).go_back) = .err es s3) :
    parse_return s = .err es s3 := by
  rw [parse_return_not_semi h, he]
  rfl

theorem parse_return_none_only_semi {s s1 : PState}
    (h : parse_return s = .ok (ASTNode.ReturnStmt s.current none) s1) :
    (s.advance).current.kind = Kind.Semicolon := by
  by_cases hk : (s.advance).current.kind = Kind.Semicolon
  · exact hk
  · exfalso
    rw [parse_return_not_semi hk] at h
    cases hr : parse_expression ((s.advance).go_back) with
    | ok expr s3 =>
      rw [hr] at h
      unfold PRes.andThen at h
      dsimp only at h
      unfold current_with_expected at h
      split at h
      · simp at h
      · cases h
    | err es s3 =>
      rw [hr] at h
      simp [PRes.andThen] at h
    | panicked =>
      rw [hr] at h
      simp [PRes.andThen] at h
    | fuelOut es t s3 =>
      rw [hr] at h
      simp [PRes.andThen] at h

/-- C8: `parse_return` yields a valueless ReturnStmt exactly when the token
right after `return` is the semicolon; for any other token it steps the
cursor back one token, delegates to the expression parser, and wraps the
parsed expression in a ReturnStmt only when a semicolon follows, a missing
semicolon or an expression-parser error propagating as the syntax error. -/
theorem parse_return_contract (s : PState) :
    ((s.advance).current.kind = Kind.Semicolon →
       parse_return s = .ok (ASTNode.ReturnStmt s.current none) s.advance) ∧
    ((s.advance).current.kind ≠ Kind.Semicolon →
       (∀ expr s3, parse_expression ((s.advance).go_back) = .ok expr s3 →
          (s3.current.kind = Kind.Semicolon →
             parse_return s = .ok (ASTNode.ReturnStmt s.current (some expr)) s3) ∧
          (s3.current.kind ≠ Kind.Semicolon →
             parse_return s = .err (s3.unexpected_token_err Kind.Semicolon s3.current.kind) s3)) ∧
       (∀ es s3, parse_expression ((s.advance).go_back) = .err es s3 →
          parse_return s = .err es s3)) ∧
    (∀ s1, parse_return s = .ok (ASTNode.ReturnStmt s.current none) s1 →
       (s.advance).current.kind = Kind.Semicolon) :=
  ⟨fun h => parse_return_semi h,
   fun h => ⟨fun _ _ he => parse_return_expr_ok h he, fun _ _ he => parse_return_expr_err h he⟩,
   fun _ h => parse_return_none_only_semi h⟩

/-- C8, witness: on `return x ;` the expression path produces the ReturnStmt
wrapping the parsed expression. -/
theorem parse_return_contract_witness :
    parse_return c8w_state =
      .ok (ASTNode.ReturnStmt (tk .Identifier "return" 0)
        (some (ASTNode.Ident (tk .Identifier "x" 1)))) c8w_mid :=
  (((parse_return_contract c8w_state).2.1 (by decide)).1
    (ASTNode.Ident (tk .Identifier "x" 1)) c8w_mid rfl).1 (by decide)

/-- C9: parsing is deterministic — the declaration, call and return parsers
are functions of the parser state alone, so identical token sequences and
scope stacks give structurally identical ASTs and identical error lists. -/
theorem parsing_deterministic (s1 s2 : PState) (fuel : Nat) (h : s1 = s2) :
    parse_function s1 = parse_function s2 ∧
    parse_function_call fuel s1 = parse_function_call fuel s2 ∧
    parse_return s1 = parse_return s2 := by
  subst h
  exact ⟨rfl, rfl, rfl⟩

/-- C9, witness: determinism at a concrete call state. -/
theorem parsing_deterministic_witness :
    parse_function c9w_state = parse_function c9w_state ∧
    parse_function_call 1 c9w_state = parse_function_call 1 c9w_state ∧
    parse_return c9w_state = parse_return c9w_state :=
  parsing_deterministic c9w_state c9w_state 1 rfl

/-- C10: `parse_call_parameters` needs a non-empty scope stack: with an
empty stack and an identifier as the next argument token the unwrap of the
top scope panics instead of producing a diagnostic, while under the
non-empty precondition neither it nor `parse_function_call` can panic. -/
theorem call_params_scope_precondition :
    (∀ (s : PState) (fuel : Nat), s.context = [] →
       (s.advance).current.kind = Kind.Identifier →
       parse_call_parameters (fuel + 1) s = .panicked) ∧
    (∀ (s : PState) (fuel : Nat), s.context ≠ [] →
       parse_call_parameters fuel s ≠ .panicked) ∧
    (∀ (s : PState) (fuel : Nat), s.context ≠ [] →
       parse_function_call fuel s ≠ .panicked) := by
  refine ⟨?_, fun s fuel h => call_params_go_no_panic fuel [] [] s h, ?_⟩
  · intro s fuel h1 h2
    unfold parse_call_parameters call_params_go
    dsimp only
    rw [h2]
    have : (s.advance).context = [] := by rw [advance_context]; exact h1
    rw [this]
  · intro s fuel h
    unfold parse_function_call advance_with_expected
    dsimp only
    split
    · have hctx : (s.advance).context ≠ [] := by rw [advance_context]; exact h
      cases hr : parse_call_parameters fuel (s.advance) with
      | ok params s2 =>
        unfold PRes.andThen current_with_expected
        dsimp only
        split <;> simp
      | err es s2 => simp [PRes.andThen]
      | panicked => exact absurd hr (call_params_go_no_panic fuel [] [] (s.advance) hctx)
      | fuelOut es t s2 => simp [PRes.andThen]
    · simp

/-- C10, witness: the concrete panic with an empty scope stack, next
argument token an identifier. -/
theorem call_params_scope_precondition_witness :
    parse_call_parameters 1 c10w_state = .panicked :=
  call_params_scope_precondition.1 c10w_state 0 rfl rfl

end MiniPLC
